import Mathlib

/-!
# Verification of the Vibe Code workspace core

Shallow embedding of the state-management core of a browser-based code
editor (source files: `App.tsx`, `services/geminiService.ts`,
`src/types.ts`).  React state updates are modelled as pure functions from
an explicit `AppState` to a new `AppState`; the outcomes of remote AI
calls and of browser dialogs (`prompt`, `alert`) are passed in as explicit
arguments, and the list of `alert` messages fired by a handler is returned
alongside the new state.
-/

/-- `types.ts`: the `type` field of a `VibeEntry` (`file | folder | image`). -/
inductive EntryType where
  | file
  | folder
  | image
deriving DecidableEq, Repr

/-- `types.ts`: `VibeEntry` — one file, folder, or image in the workspace. -/
structure VibeEntry where
  id : String
  name : String
  content : String
  language : String
  type : EntryType
deriving DecidableEq, Repr

/-- `types.ts`: the `role` field of a `ChatMessage` (`user | model`). -/
inductive ChatRole where
  | user
  | model
deriving DecidableEq, Repr

/-- `types.ts`: `ChatMessage` — one turn in the assistant transcript. -/
structure ChatMessage where
  role : ChatRole
  content : String
deriving DecidableEq, Repr

/-- `types.ts`: `AIMode` enum; its values are the strings shown. -/
inductive AIMode where
  | analyze
  | refactor
deriving DecidableEq, Repr

/-- The string values of the `AIMode` enum members from `types.ts`. -/
def AIMode.str : AIMode → String
  | .analyze => "Analyze"
  | .refactor => "Refactor (Thinking Mode)"

/-- `App.tsx` lines 56-61: the `useState` hooks of the `App` component.
The opaque `Chat` session handle is modelled as a `Nat`. -/
structure AppState where
  entries : List VibeEntry
  activeId : Option String
  chatHistory : List ChatMessage
  isAiLoading : Bool
  chat : Option Nat
  isScaffoldModalOpen : Bool
deriving DecidableEq, Repr

/-- JavaScript `s.split(sep)` for a one-character separator, on char lists.
`"".split(sep)` is `[""]`, and separators at the ends yield empty pieces,
exactly as in JavaScript. -/
def splitOnChar (sep : Char) : List Char → List (List Char)
  | [] => [[]]
  | c :: rest =>
    if c = sep then [] :: splitOnChar sep rest
    else
      match splitOnChar sep rest with
      | h :: t => (c :: h) :: t
      | [] => [[c]]

/-- `App.tsx` line 86: `fileName.split(chr 46).pop() or else text` — the
derived language of a new file. -/
def jsLang (fileName : String) : String :=
  let last := (splitOnChar '.' fileName.toList).getLastD []
  if last = [] then "text" else String.mk last

/-- `App.tsx` line 101: `folderPath.split(chr 47).pop() or else folderPath`
— the display name of a new folder. -/
def jsFolderName (folderPath : String) : String :=
  let last := (splitOnChar '/' folderPath.toList).getLastD []
  if last = [] then folderPath else String.mk last

/-- JavaScript template-literal interpolation of a nullable string:
`null` prints as the text `"null"`. -/
def jsTemplateOpt : Option String → String
  | some s => s
  | none => "null"

/-- `App.tsx` lines 10-53: the three pre-seeded workspace entries. -/
def initialEntries : List VibeEntry :=
  [ { id := "welcome.js"
    , name := "welcome.js"
    , content := "// Welcome to Vibe Code!\n// Use the AI tools in the editor header to analyze or refactor your code.\n// Ask the Vibe Bot anything in the chat panel on the right.\n\nfunction greet(name) \x7b\n  console.log(`Hello, $\x7bname\x7d! Let\x27s start coding.`);\n\x7d\n\ngreet(\x27Developer\x27);\n"
    , language := "javascript"
    , type := EntryType.file }
  , { id := "styles.css"
    , name := "styles.css"
    , content := "/* Give your web app some vibe! */\nbody \x7b\n  background-color: #1a202c;\n  color: #cbd5e0;\n  font-family: \x27monospace\x27, sans-serif;\n\x7d\n\n.container \x7b\n  border: 1px solid #4a5568;\n  border-radius: 8px;\n  padding: 1rem;\n\x7d\n"
    , language := "css"
    , type := EntryType.file }
  , { id := "assets"
    , name := "assets"
    , content := ""
    , language := ""
    , type := EntryType.folder } ]

/-- `App.tsx` lines 56-61: the state of the component at first render. -/
def initialAppState : AppState :=
  { entries := initialEntries
  , activeId := some "welcome.js"
  , chatHistory := []
  , isAiLoading := false
  , chat := none
  , isScaffoldModalOpen := false }

/-- `App.tsx` line 65: the greeting placed in the transcript on mount. -/
def vibeBotGreeting : String :=
  "Hey! I\x27m Vibe Bot. Ask me anything about your code or general questions."

/-- `App.tsx` lines 63-67: the mount effect replaces the chat history with
the single greeting message. -/
def mountChatEffect (st : AppState) : AppState :=
  { st with chatHistory := [{ role := ChatRole.model, content := vibeBotGreeting }] }

/-- `App.tsx` lines 69-71: `handleSelect` sets the active id unconditionally. -/
def handleSelect (st : AppState) (id : String) : AppState :=
  { st with activeId := some id }

/-- `App.tsx` lines 73-77: `handleContentChange`.  The guard
`if (activeId)` is JavaScript truthiness: both `null` and the empty string
skip the update. -/
def handleContentChange (st : AppState) (newContent : String) : AppState :=
  match st.activeId with
  | none => st
  | some a =>
    if a = "" then st
    else
      { st with entries :=
          st.entries.map fun e =>
            if e.id = a then { e with content := newContent } else e }

/-- `App.tsx` lines 79-94: `handleNewFile`.  `promptResult` is the value
returned by the browser `prompt` dialog (`none` = cancelled).  The second
component of the result is the list of `alert` messages fired. -/
def handleNewFile (st : AppState) (promptResult : Option String) :
    AppState × List String :=
  match promptResult with
  | none => (st, [])
  | some fileName =>
    if fileName ≠ "" ∧ (st.entries.any fun e => e.name == fileName) = false then
      let newFile : VibeEntry :=
        { id := fileName
        , name := fileName
        , content := "// New file: " ++ fileName
        , language := jsLang fileName
        , type := EntryType.file }
      ({ st with entries := st.entries ++ [newFile], activeId := some newFile.id }, [])
    else if fileName ≠ "" then
      (st, ["A file with that name already exists."])
    else
      (st, [])

/-- `App.tsx` lines 96-111: `handleNewFolder`.  Note the duplicate check is
on `id` here, while `handleNewFile` checks `name`. -/
def handleNewFolder (st : AppState) (promptResult : Option String) :
    AppState × List String :=
  match promptResult with
  | none => (st, [])
  | some folderPath =>
    if folderPath ≠ "" ∧ (st.entries.any fun e => e.id == folderPath) = false then
      let newFolder : VibeEntry :=
        { id := folderPath
        , name := jsFolderName folderPath
        , content := ""
        , language := ""
        , type := EntryType.folder }
      ({ st with entries := st.entries ++ [newFolder], activeId := some newFolder.id }, [])
    else if folderPath ≠ "" then
      (st, ["A folder with that path already exists."])
    else
      (st, [])

/-- Outcome of the awaited `runChat` gateway call inside
`handleSendMessage`: success carries the session handle and reply text. -/
inductive ChatResult where
  | success (chatInstance : Nat) (response : String)
  | failure
deriving DecidableEq, Repr

/-- `App.tsx` line 137: the fixed fallback reply appended when `runChat`
throws. -/
def chatFallbackMessage : String :=
  "Sorry, I ran into an issue. Please check the console for details."

/-- `App.tsx` lines 125-142: `handleSendMessage`.  The user message is
appended first, then the awaited gateway outcome decides the second
appended message; the `finally` block clears the busy flag.  The function
is total: no outcome makes it throw to the caller. -/
def handleSendMessage (st : AppState) (message : String) (res : ChatResult) :
    AppState :=
  let userMsg : ChatMessage := { role := ChatRole.user, content := message }
  let st1 := { st with chatHistory := st.chatHistory ++ [userMsg], isAiLoading := true }
  match res with
  | ChatResult.success inst resp =>
    let st2 := if st.chat = none then { st1 with chat := some inst } else st1
    let modelMsg : ChatMessage := { role := ChatRole.model, content := resp }
    { st2 with chatHistory := st2.chatHistory ++ [modelMsg], isAiLoading := false }
  | ChatResult.failure =>
    let errMsg : ChatMessage := { role := ChatRole.model, content := chatFallbackMessage }
    { st1 with chatHistory := st1.chatHistory ++ [errMsg], isAiLoading := false }

/-- `App.tsx` lines 156-162: the markdown entry synthesized on a
successful AI action.  `now` is the value of `Date.now()` (milliseconds);
`activeId` is the active id captured at invocation time. -/
def aiResponseEntry (activeId : Option String) (mode : AIMode) (now : Nat)
    (result : String) : VibeEntry :=
  { id := "ai-response-" ++ toString now ++ ".md"
  , name := mode.str ++ "-response.md"
  , content := "## AI " ++ mode.str ++ " Result for " ++ jsTemplateOpt activeId
      ++ "\n\n---\n\n" ++ result
  , language := "markdown"
  , type := EntryType.file }

/-- `App.tsx` lines 144-171: `handleAiAction`.  `now` is `Date.now()` at
the moment the response entry is built; `result` is the outcome of the
awaited `analyzeCode` or `refactorCodeWithThinking` call (the dispatch on
`mode` only chooses which gateway function produced it).  The `finally`
block clears the busy flag on every path. -/
def handleAiAction (st : AppState) (mode : AIMode) (code : String) (now : Nat)
    (result : Except String String) : AppState × List String :=
  match result with
  | Except.ok r =>
    let f := aiResponseEntry st.activeId mode now r
    ({ st with entries := st.entries ++ [f], activeId := some f.id, isAiLoading := false }, [])
  | Except.error _ =>
    ({ st with isAiLoading := false },
     ["An error occurred during AI " ++ mode.str ++ ". Please check the console."])

/-- Errors surfaced by the gateway: the fixed error thrown by the
scaffold parse step, or a transport/service error passed through unchanged. -/
inductive GeminiError where
  | scaffoldFailed (message : String)
  | transport (message : String)
deriving DecidableEq, Repr

/-- `App.tsx` lines 173-188: `handleScaffold`.  `result` is the outcome of
the awaited `scaffoldProject` call, already cast to a list of entries as
the source does.  On success the returned entries are appended in order,
the modal closes, and the first entry (if any) becomes active; the
`finally` block clears the busy flag. -/
def handleScaffold (st : AppState) (result : Except GeminiError (List VibeEntry)) :
    AppState × List String :=
  match result with
  | Except.ok newEntries =>
    ({ st with
        entries := st.entries ++ newEntries
      , isScaffoldModalOpen := false
      , activeId := (match newEntries with
          | e :: _ => some e.id
          | [] => st.activeId)
      , isAiLoading := false }, [])
  | Except.error _ =>
    ({ st with isAiLoading := false },
     ["An error occurred during scaffolding. Please check the console."])

/-- A concrete empty workspace state, used as a base point for tests. -/
def emptyAppState : AppState :=
  { entries := []
  , activeId := none
  , chatHistory := []
  , isAiLoading := false
  , chat := none
  , isScaffoldModalOpen := false }

/-- `geminiService.ts` line 10: the constructed API client. -/
structure GoogleGenAI where
  apiKey : String
deriving DecidableEq, Repr

/-- `geminiService.ts` lines 4-10: module initialization.  `apiKey` is the
value of the `API_KEY` environment variable (`none` = unset).  The guard
`if (!API_KEY)` is JavaScript truthiness, so an unset variable and an
empty string both throw before any gateway call can be made; otherwise the
client is constructed.  The four gateway operations take the constructed
client, so they are only reachable after a successful initialization. -/
def initGeminiService (apiKey : Option String) : Except String GoogleGenAI :=
  match apiKey with
  | none => Except.error "API_KEY environment variable not set"
  | some k =>
    if k = "" then Except.error "API_KEY environment variable not set"
    else Except.ok { apiKey := k }

/-- JSON values, as produced by `JSON.parse`.  Numbers keep their source
lexeme so no floating-point semantics is introduced. -/
inductive Json where
  | null
  | bool (b : Bool)
  | num (lexeme : String)
  | str (s : String)
  | arr (elems : List Json)
  | obj (fields : List (String × Json))

/-- Whitespace accepted between JSON tokens. -/
def isJsonWs (c : Char) : Bool :=
  c = ' ' ∨ c = '\n' ∨ c = '\r' ∨ c = '\t'

/-- Drop leading JSON whitespace. -/
def skipWs : List Char → List Char
  | [] => []
  | c :: cs => if isJsonWs c then skipWs cs else c :: cs

/-- Value of one hexadecimal digit. -/
def hexVal (c : Char) : Option Nat :=
  if '0' ≤ c ∧ c ≤ '9' then some (c.toNat - '0'.toNat)
  else if 'a' ≤ c ∧ c ≤ 'f' then some (c.toNat - 'a'.toNat + 10)
  else if 'A' ≤ c ∧ c ≤ 'F' then some (c.toNat - 'A'.toNat + 10)
  else none

/-- Body of a JSON string after the opening quote: returns the decoded
string and the input remaining after the closing quote.  Handles the JSON
escapes and rejects unescaped control characters, as `JSON.parse` does. -/
def parseStringBody (acc : List Char) : List Char → Option (String × List Char)
  | [] => none
  | '"' :: cs => some (String.mk acc.reverse, cs)
  | '\\' :: e :: cs =>
    match e with
    | '"' => parseStringBody ('"' :: acc) cs
    | '\\' => parseStringBody ('\\' :: acc) cs
    | '/' => parseStringBody ('/' :: acc) cs
    | 'b' => parseStringBody ('\x08' :: acc) cs
    | 'f' => parseStringBody ('\x0c' :: acc) cs
    | 'n' => parseStringBody ('\n' :: acc) cs
    | 'r' => parseStringBody ('\r' :: acc) cs
    | 't' => parseStringBody ('\t' :: acc) cs
    | 'u' =>
      match cs with
      | h1 :: h2 :: h3 :: h4 :: rest =>
        match hexVal h1, hexVal h2, hexVal h3, hexVal h4 with
        | some a, some b, some c, some d =>
          parseStringBody (Char.ofNat (((a * 16 + b) * 16 + c) * 16 + d) :: acc) rest
        | _, _, _, _ => none
      | _ => none
    | _ => none
  | c :: cs => if c.toNat < 32 then none else parseStringBody (c :: acc) cs

/-- Longest prefix of decimal digits, and the rest. -/
def takeDigits : List Char → List Char × List Char
  | [] => ([], [])
  | c :: cs =>
    if c.isDigit then
      let (ds, r) := takeDigits cs
      (c :: ds, r)
    else ([], c :: cs)

/-- Integer part of a JSON number: `0`, or a nonzero digit followed by
digits. -/
def parseIntPart : List Char → Option (List Char × List Char)
  | [] => none
  | '0' :: rest => some (['0'], rest)
  | c :: rest =>
    if c.isDigit then
      let (ds, r) := takeDigits rest
      some (c :: ds, r)
    else none

/-- Optional fraction part of a JSON number. -/
def parseFracPart (cs : List Char) : Option (List Char × List Char) :=
  match cs with
  | '.' :: rest =>
    let (ds, r) := takeDigits rest
    if ds = [] then none else some ('.' :: ds, r)
  | _ => some ([], cs)

/-- Optional exponent part of a JSON number. -/
def parseExpPart (cs : List Char) : Option (List Char × List Char) :=
  match cs with
  | c :: rest =>
    if c = 'e' ∨ c = 'E' then
      match rest with
      | s :: r1 =>
        if s = '+' ∨ s = '-' then
          let (ds, r2) := takeDigits r1
          if ds = [] then none else some (c :: s :: ds, r2)
        else
          let (ds, r2) := takeDigits rest
          if ds = [] then none else some (c :: ds, r2)
      | [] => none
    else some ([], cs)
  | [] => some ([], [])

/-- A full JSON number lexeme: optional minus, integer part, optional
fraction and exponent. -/
def parseNumberLexeme (cs : List Char) : Option (String × List Char) :=
  let (neg, cs1) :=
    match cs with
    | '-' :: r => ((['-'] : List Char), r)
    | _ => (([] : List Char), cs)
  match parseIntPart cs1 with
  | none => none
  | some (ip, r1) =>
    match parseFracPart r1 with
    | none => none
    | some (fp, r2) =>
      match parseExpPart r2 with
      | none => none
      | some (ep, r3) => some (String.mk (neg ++ ip ++ fp ++ ep), r3)

mutual

/-- Recursive-descent model of `JSON.parse`, fuelled to make termination
structural.  Returns the value and the remaining input. -/
def parseValue : Nat → List Char → Option (Json × List Char)
  | 0, _ => none
  | Nat.succ fuel, cs =>
    match skipWs cs with
    | '"' :: rest =>
      match parseStringBody [] rest with
      | some (s, r) => some (Json.str s, r)
      | none => none
    | '\x7b' :: rest => parseObjStart fuel rest
    | '[' :: rest => parseArrStart fuel rest
    | 't' :: 'r' :: 'u' :: 'e' :: rest => some (Json.bool true, rest)
    | 'f' :: 'a' :: 'l' :: 's' :: 'e' :: rest => some (Json.bool false, rest)
    | 'n' :: 'u' :: 'l' :: 'l' :: rest => some (Json.null, rest)
    | rest =>
      match parseNumberLexeme rest with
      | some (s, r) => some (Json.num s, r)
      | none => none

/-- After the opening bracket of an array. -/
def parseArrStart : Nat → List Char → Option (Json × List Char)
  | 0, _ => none
  | Nat.succ fuel, cs =>
    match skipWs cs with
    | ']' :: rest => some (Json.arr [], rest)
    | cs2 =>
      match parseValue fuel cs2 with
      | some (v, r) => parseArrRest fuel [v] r
      | none => none

/-- After an array element: expects a comma or the closing bracket. -/
def parseArrRest : Nat → List Json → List Char → Option (Json × List Char)
  | 0, _, _ => none
  | Nat.succ fuel, acc, cs =>
    match skipWs cs with
    | ',' :: rest =>
      match parseValue fuel rest with
      | some (v, r) => parseArrRest fuel (acc ++ [v]) r
      | none => none
    | ']' :: rest => some (Json.arr acc, rest)
    | _ => none

/-- After the opening brace of an object. -/
def parseObjStart : Nat → List Char → Option (Json × List Char)
  | 0, _ => none
  | Nat.succ fuel, cs =>
    match skipWs cs with
    | '\x7d' :: rest => some (Json.obj [], rest)
    | cs2 => parseObjMember fuel [] cs2

/-- One `"key": value` member of an object. -/
def parseObjMember : Nat → List (String × Json) → List Char → Option (Json × List Char)
  | 0, _, _ => none
  | Nat.succ fuel, acc, cs =>
    match skipWs cs with
    | '"' :: rest =>
      match parseStringBody [] rest with
      | some (k, r1) =>
        match skipWs r1 with
        | ':' :: r2 =>
          match parseValue fuel r2 with
          | some (v, r3) => parseObjRest fuel (acc ++ [(k, v)]) r3
          | none => none
        | _ => none
      | none => none
    | _ => none

/-- After an object member: expects a comma or the closing brace. -/
def parseObjRest : Nat → List (String × Json) → List Char → Option (Json × List Char)
  | 0, _, _ => none
  | Nat.succ fuel, acc, cs =>
    match skipWs cs with
    | ',' :: rest => parseObjMember fuel acc rest
    | '\x7d' :: rest => some (Json.obj acc, rest)
    | _ => none

end

/-- Model of `JSON.parse(s)`: parse one value and require that only
whitespace remains.  The fuel bound exceeds any possible nesting depth of
the input. -/
def jsonParse (s : String) : Option Json :=
  let cs := s.toList
  match parseValue (cs.length + 1) cs with
  | some (v, r) => if skipWs r = [] then some v else none
  | none => none

/-- `geminiService.ts` line 105: the effect of
`text.match` with the greedy bracket pattern — a match exists exactly when
some closing bracket follows the first opening bracket, and it spans from
that first opening bracket to the last closing bracket of the text. -/
def jsExtractArrayAux : List Char → Option (List Char)
  | [] => none
  | c :: cs =>
    if c = '[' then
      let r := cs.reverse.dropWhile (fun x => x ≠ ']')
      if r = [] then none else some ('[' :: r.reverse)
    else jsExtractArrayAux cs

/-- String-level wrapper for the bracket-substring extraction. -/
def jsExtractArray (text : String) : Option String :=
  (jsExtractArrayAux text.toList).map String.mk

/-- True when the text contains a `[` with some `]` after it, i.e. when
the greedy bracket pattern of `scaffoldProject` can match at all. -/
def hasArraySubstring : List Char → Bool
  | [] => false
  | c :: cs => if c = '[' then cs.contains ']' else hasArraySubstring cs

/-- `geminiService.ts` line 113: the fixed message of the error thrown by
the scaffold parse step. -/
def scaffoldFailedMessage : String :=
  "Failed to generate project structure. Please try again."

/-- `geminiService.ts` lines 65-115: `scaffoldProject`, modelled from the
point the remote call settles.  `response` is the outcome of the awaited
`generateContent` call: a transport error propagates unchanged (the await
is outside the try block), and on a response text the bracket substring is
extracted and fed to `JSON.parse`.  Both a missing substring and a parse
failure are caught and rethrown as the fixed scaffold error.  The parsed
value is returned as-is — the source casts it to `VibeEntry[]` without any
schema validation. -/
def scaffoldProject (response : Except String String) : Except GeminiError Json :=
  match response with
  | Except.error e => Except.error (GeminiError.transport e)
  | Except.ok text =>
    match jsExtractArray text with
    | none => Except.error (GeminiError.scaffoldFailed scaffoldFailedMessage)
    | some s =>
      match jsonParse s with
      | none => Except.error (GeminiError.scaffoldFailed scaffoldFailedMessage)
      | some j => Except.ok j

/-- Look up a field of a parsed JSON object. -/
def jsonField (fields : List (String × Json)) (k : String) : Option Json :=
  match fields.find? (fun p => p.1 == k) with
  | some p => some p.2
  | none => none

/-- Modelled from the spec: the section-6 wire contract requires every
scaffold element to be an object with string fields `id`, `name`,
`content`, `language` and a `type` equal to `"file"` or `"folder"`.  The
source performs no such check; this predicate exists to compare the
claimed validation against the code. -/
def specValidEntry (j : Json) : Bool :=
  match j with
  | Json.obj fs =>
    (match jsonField fs "id" with | some (Json.str _) => true | _ => false) &&
    (match jsonField fs "name" with | some (Json.str _) => true | _ => false) &&
    (match jsonField fs "content" with | some (Json.str _) => true | _ => false) &&
    (match jsonField fs "language" with | some (Json.str _) => true | _ => false) &&
    (match jsonField fs "type" with
     | some (Json.str t) => t == "file" || t == "folder"
     | _ => false)
  | _ => false

/-- Modelled from the spec: a valid scaffold response is an array whose
elements all satisfy `specValidEntry`. -/
def specValidEntries (j : Json) : Bool :=
  match j with
  | Json.arr xs => xs.all specValidEntry
  | _ => false

/-- Read one parsed JSON object back as a typed `VibeEntry`, following the
shape in `types.ts`; used to state what a well-formed scaffold element
denotes. -/
def jsonEntry (j : Json) : Option VibeEntry :=
  match j with
  | Json.obj fs =>
    match jsonField fs "id", jsonField fs "name", jsonField fs "content",
        jsonField fs "language", jsonField fs "type" with
    | some (Json.str i), some (Json.str n), some (Json.str c),
        some (Json.str l), some (Json.str t) =>
      if t = "file" then some { id := i, name := n, content := c, language := l, type := EntryType.file }
      else if t = "folder" then some { id := i, name := n, content := c, language := l, type := EntryType.folder }
      else if t = "image" then some { id := i, name := n, content := c, language := l, type := EntryType.image }
      else none
    | _, _, _, _, _ => none
  | _ => none

/-! ## Helper lemmas -/

theorem splitOnChar_of_not_mem (sep : Char) (cs : List Char) (h : sep ∉ cs) :
    splitOnChar sep cs = [cs] := by
  induction cs with
  | nil => rfl
  | cons c rest ih =>
    simp only [List.mem_cons, not_or] at h
    have hc : ¬ (c = sep) := fun hc => h.1 hc.symm
    simp only [splitOnChar, if_neg hc, ih h.2]

theorem string_mk_toList (s : String) : String.mk s.toList = s := rfl

theorem toList_ne_nil {s : String} (h : s ≠ "") : s.toList ≠ [] := by
  intro hn
  exact h (by rw [← string_mk_toList s, hn])

theorem jsLang_of_no_dot (f : String) (hne : f ≠ "") (hnd : '.' ∉ f.toList) :
    jsLang f = f := by
  unfold jsLang
  rw [splitOnChar_of_not_mem _ _ hnd]
  have hg : [f.toList].getLastD ([] : List Char) = f.toList := rfl
  rw [hg, if_neg (toList_ne_nil hne), string_mk_toList]

theorem jsExtractArrayAux_eq_none {cs : List Char}
    (h : hasArraySubstring cs = false) : jsExtractArrayAux cs = none := by
  induction cs with
  | nil => rfl
  | cons c rest ih =>
    rw [hasArraySubstring] at h
    rw [jsExtractArrayAux]
    by_cases hc : c = '['
    · rw [if_pos hc] at h ⊢
      have hmem : ∀ x ∈ rest.reverse, x ≠ ']' := by
        intro x hx
        intro hxe
        subst hxe
        have hm : ']' ∈ rest := List.mem_reverse.mp hx
        simp at h
        exact h hm
      rw [List.dropWhile_eq_nil_iff.mpr (by simpa using hmem)]
      simp
    · rw [if_neg hc] at h ⊢
      exact ih h

theorem nodup_concat_of_not_memId (l : List VibeEntry) (nf : VibeEntry)
    (h : (l.map VibeEntry.id).Nodup) (hnm : nf.id ∉ l.map VibeEntry.id) :
    ((l ++ [nf]).map VibeEntry.id).Nodup := by
  rw [List.map_append, List.map_singleton]
  exact h.append (List.nodup_singleton _) (List.disjoint_singleton.mpr hnm)

/-! ## Claim C1 -/

/-- The state reached from the empty workspace by `createFolder "a/b"`
followed by `createFile "a/b"`. -/
def c1CexState : AppState :=
  (handleNewFile (handleNewFolder emptyAppState (some "a/b")).1 (some "a/b")).1

/-- Claim C1 as stated is false on the code: starting from the empty
collection (trivially unique ids), `createFolder "a/b"` then
`createFile "a/b"` produces two entries with id `"a/b"`.  The file
duplicate check compares names, and the folder created first has name
`"b"`, so the second call appends instead of erroring. -/
theorem C1_counterexample :
    c1CexState.entries.map VibeEntry.id = ["a/b", "a/b"] ∧
    ¬ (c1CexState.entries.map VibeEntry.id).Nodup := by
  constructor
  · rfl
  · decide

/-- Claim C1 amended: `createFolder` rejects a duplicate id (the collection
is unchanged and an alert is reported) and always preserves id-uniqueness;
`createFile` rejects a duplicate name, and preserves id-uniqueness only on
collections in which every entry is named by its id (its check is on
names), a shape that `createFile` itself maintains.  A file whose name
equals the id of an entry with a differing name can still duplicate an id. -/
theorem C1_amended :
    (∀ st p, (st.entries.map VibeEntry.id).Nodup →
      ((handleNewFolder st p).1.entries.map VibeEntry.id).Nodup) ∧
    (∀ st s, s ≠ "" → (st.entries.any fun e => e.id == s) = true →
      handleNewFolder st (some s) = (st, ["A folder with that path already exists."])) ∧
    (∀ st p, (st.entries.map VibeEntry.id).Nodup →
      (∀ e ∈ st.entries, e.name = e.id) →
      ((handleNewFile st p).1.entries.map VibeEntry.id).Nodup ∧
      (∀ e ∈ (handleNewFile st p).1.entries, e.name = e.id)) ∧
    (∀ st f, f ≠ "" → (st.entries.any fun e => e.name == f) = true →
      handleNewFile st (some f) = (st, ["A file with that name already exists."])) := by
  refine ⟨?_, ?_, ?_, ?_⟩
  · intro st p h
    match p with
    | none => simpa [handleNewFolder] using h
    | some s =>
      by_cases hcond : s ≠ "" ∧ (st.entries.any fun e => e.id == s) = false
      · have hnm : s ∉ st.entries.map VibeEntry.id := by
          intro hmem
          obtain ⟨e, he, hid⟩ := List.mem_map.mp hmem
          have h2 := hcond.2
          simp only [List.any_eq_false] at h2
          exact absurd hid (by simpa using h2 e he)
        simp only [handleNewFolder, if_pos hcond]
        exact nodup_concat_of_not_memId _ _ h hnm
      · by_cases hs : s ≠ ""
        · simp only [handleNewFolder, if_neg hcond, if_pos hs]
          exact h
        · simp only [handleNewFolder, if_neg hcond, if_neg hs]
          exact h
  · intro st s hs hdup
    have hnc : ¬ (s ≠ "" ∧ (st.entries.any fun e => e.id == s) = false) := by
      rintro ⟨-, h2⟩
      rw [hdup] at h2
      exact Bool.noConfusion h2
    simp only [handleNewFolder, if_neg hnc, if_pos hs]
  · intro st p h hn
    match p with
    | none => exact ⟨by simpa [handleNewFile] using h, by simpa [handleNewFile] using hn⟩
    | some f =>
      by_cases hcond : f ≠ "" ∧ (st.entries.any fun e => e.name == f) = false
      · have hnm : f ∉ st.entries.map VibeEntry.id := by
          intro hmem
          obtain ⟨e, he, hid⟩ := List.mem_map.mp hmem
          have h2 := hcond.2
          simp only [List.any_eq_false] at h2
          have : e.name ≠ f := by simpa using h2 e he
          exact this (by rw [hn e he, hid])
        constructor
        · simp only [handleNewFile, if_pos hcond]
          exact nodup_concat_of_not_memId _ _ h hnm
        · simp only [handleNewFile, if_pos hcond]
          intro e he
          rcases List.mem_append.mp he with hl | hr
          · exact hn e hl
          · rcases List.mem_singleton.mp hr with rfl
            rfl
      · by_cases hf : f ≠ ""
        · exact ⟨by simp only [handleNewFile, if_neg hcond, if_pos hf]; exact h,
                 by simp only [handleNewFile, if_neg hcond, if_pos hf]; exact hn⟩
        · exact ⟨by simp only [handleNewFile, if_neg hcond, if_neg hf]; exact h,
                 by simp only [handleNewFile, if_neg hcond, if_neg hf]; exact hn⟩
  · intro st f hf hdup
    have hnc : ¬ (f ≠ "" ∧ (st.entries.any fun e => e.name == f) = false) := by
      rintro ⟨-, h2⟩
      rw [hdup] at h2
      exact Bool.noConfusion h2
    simp only [handleNewFile, if_neg hnc, if_pos hf]

/-- Concrete instantiation of `C1_amended`. -/
theorem C1_witness :
    ((handleNewFolder initialAppState (some "src")).1.entries.map VibeEntry.id).Nodup ∧
    handleNewFolder initialAppState (some "assets")
      = (initialAppState, ["A folder with that path already exists."]) ∧
    (((handleNewFile initialAppState (some "app.ts")).1.entries.map VibeEntry.id).Nodup ∧
      ∀ e ∈ (handleNewFile initialAppState (some "app.ts")).1.entries, e.name = e.id) ∧
    handleNewFile initialAppState (some "styles.css")
      = (initialAppState, ["A file with that name already exists."]) :=
  ⟨C1_amended.1 initialAppState (some "src") (by decide),
   C1_amended.2.1 initialAppState "assets" (by decide) (by decide),
   C1_amended.2.2.1 initialAppState (some "app.ts") (by decide) (by decide),
   C1_amended.2.2.2 initialAppState "styles.css" (by decide) (by decide)⟩

/-! ## Claim C2 -/

/-- Claim C2 as stated is false on the code: `createFile "README"` — a name
containing no dot — derives language `"README"`, not `"text"`.  The
JavaScript `split`/`pop` chain yields the whole name for a dotless name,
and a non-empty name is truthy, so the `"text"` fallback is not taken. -/
theorem C2_counterexample :
    (handleNewFile emptyAppState (some "README")).1.entries.map VibeEntry.language
      = ["README"] ∧
    '.' ∉ "README".toList ∧
    ("README" : String) ≠ "text" := by
  refine ⟨rfl, by decide, by decide⟩

/-- Claim C2 amended: `createFile(name)` leaves the collection unchanged when
the name is cancelled or empty, and fails with an alert when an entry with
that exact name exists; otherwise it appends exactly one file entry and sets
it active.  The derived language is the substring after the last dot when
that substring is nonempty, and `"text"` only when that substring is empty
(name ending in a dot); a name containing no dot derives the whole name
itself, not `"text"`. -/
theorem C2_amended :
    (∀ st, handleNewFile st none = (st, [])) ∧
    (∀ st, handleNewFile st (some "") = (st, [])) ∧
    (∀ st f, f ≠ "" → (st.entries.any fun e => e.name == f) = true →
      handleNewFile st (some f) = (st, ["A file with that name already exists."])) ∧
    (∀ st f, f ≠ "" → (st.entries.any fun e => e.name == f) = false →
      handleNewFile st (some f) =
        ({ st with
            entries := st.entries ++
              [{ id := f, name := f, content := "// New file: " ++ f,
                 language := jsLang f, type := EntryType.file }]
          , activeId := some f }, [])) ∧
    (∀ f, f ≠ "" → '.' ∉ f.toList → jsLang f = f) := by
  refine ⟨fun st => rfl, fun st => ?_, ?_, ?_, jsLang_of_no_dot⟩
  · have hnc : ¬ (("" : String) ≠ "" ∧ (st.entries.any fun e => e.name == "") = false) :=
      fun hc => hc.1 rfl
    have hne : ¬ (("" : String) ≠ "") := fun hc => hc rfl
    simp only [handleNewFile, if_neg hnc, if_neg hne]
  · intro st f hf hdup
    have hnc : ¬ (f ≠ "" ∧ (st.entries.any fun e => e.name == f) = false) := by
      rintro ⟨-, h2⟩
      rw [hdup] at h2
      exact Bool.noConfusion h2
    simp only [handleNewFile, if_neg hnc, if_pos hf]
  · intro st f hf hfree
    simp only [handleNewFile, if_pos (And.intro hf hfree)]

/-- Concrete instantiation of `C2_amended`. -/
theorem C2_witness :
    handleNewFile initialAppState (some "welcome.js")
      = (initialAppState, ["A file with that name already exists."]) ∧
    handleNewFile emptyAppState (some "a.js")
      = ({ emptyAppState with
            entries := emptyAppState.entries ++
              [{ id := "a.js", name := "a.js", content := "// New file: " ++ "a.js",
                 language := jsLang "a.js", type := EntryType.file }]
          , activeId := some "a.js" }, []) ∧
    jsLang "README" = "README" :=
  ⟨C2_amended.2.2.1 initialAppState "welcome.js" (by decide) (by decide),
   C2_amended.2.2.2.1 emptyAppState "a.js" (by decide) (by decide),
   C2_amended.2.2.2.2 "README" (by decide) (by decide)⟩

/-! ## Claim C3 -/

/-- The state reached from the empty workspace by two successful AI actions
that observe the same `Date.now()` value. -/
def c3CexState : AppState :=
  (handleAiAction (handleAiAction emptyAppState AIMode.analyze "x" 7 (Except.ok "r1")).1
    AIMode.analyze "x" 7 (Except.ok "r2")).1

/-- Claim C3 as stated is false on the code: two successful `runAiAction`
calls within the same millisecond-resolution clock tick both generate the
id `ai-response-7.md`, so the second appended entry duplicates an existing
id — uniqueness rests solely on the coarse timestamp. -/
theorem C3_counterexample :
    c3CexState.entries.map VibeEntry.id = ["ai-response-7.md", "ai-response-7.md"] ∧
    ¬ (c3CexState.entries.map VibeEntry.id).Nodup := by
  constructor
  · rfl
  · decide

/-- Claim C3 amended: on success `runAiAction` appends exactly one markdown
entry and activates it; the content is the gateway result prefixed by a
heading naming the entry active at invocation time; the id is
`ai-response-<timestamp>.md`, unique with respect to the existing
collection only when no existing entry carries the id generated for that
timestamp — in particular two successes in the same millisecond tick
produce the same id. -/
theorem C3_amended (st : AppState) (mode : AIMode) (code : String) (now : Nat)
    (r : String) :
    (handleAiAction st mode code now (Except.ok r)).1.entries
      = st.entries ++ [aiResponseEntry st.activeId mode now r] ∧
    (handleAiAction st mode code now (Except.ok r)).1.activeId
      = some ("ai-response-" ++ toString now ++ ".md") ∧
    (aiResponseEntry st.activeId mode now r).language = "markdown" ∧
    (aiResponseEntry st.activeId mode now r).content
      = "## AI " ++ mode.str ++ " Result for " ++ jsTemplateOpt st.activeId
          ++ "\n\n---\n\n" ++ r ∧
    ((st.entries.map VibeEntry.id).Nodup →
      ("ai-response-" ++ toString now ++ ".md") ∉ st.entries.map VibeEntry.id →
      ((handleAiAction st mode code now (Except.ok r)).1.entries.map VibeEntry.id).Nodup) := by
  refine ⟨rfl, rfl, rfl, rfl, fun h hnm => ?_⟩
  exact nodup_concat_of_not_memId _ _ h hnm

/-- Concrete instantiation of `C3_amended`. -/
theorem C3_witness :
    ((handleAiAction emptyAppState AIMode.analyze "c" 3 (Except.ok "r")).1.entries.map
      VibeEntry.id).Nodup :=
  (C3_amended emptyAppState AIMode.analyze "c" 3 "r").2.2.2.2 (by decide) (by decide)

/-! ## Claim C4 -/

/-- Claim C4 as stated is false on the code: the response text `"[1]"`
extracts and parses to the JSON array `[1]`, which is not an array of
Entry-shaped objects, yet `scaffoldProject` returns it as the entry list
instead of failing with a validation error — the source casts the parsed
value without any schema check. -/
theorem C4_counterexample :
    scaffoldProject (Except.ok "[1]") = Except.ok (Json.arr [Json.num "1"]) ∧
    specValidEntries (Json.arr [Json.num "1"]) = false :=
  ⟨rfl, rfl⟩

/-- Claim C4 amended: `scaffoldProject` performs no schema validation:
whenever the bracket extraction yields a substring on which `JSON.parse`
succeeds, the parsed value is returned as the entry list, Entry-shaped or
not; the operation fails with the fixed scaffold error exactly when no
bracket substring exists or parsing fails. -/
theorem C4_amended (text s : String) (j : Json) :
    (jsExtractArray text = some s → jsonParse s = some j →
      scaffoldProject (Except.ok text) = Except.ok j) ∧
    (jsExtractArray text = none →
      scaffoldProject (Except.ok text)
        = Except.error (GeminiError.scaffoldFailed scaffoldFailedMessage)) ∧
    (jsExtractArray text = some s → jsonParse s = none →
      scaffoldProject (Except.ok text)
        = Except.error (GeminiError.scaffoldFailed scaffoldFailedMessage)) := by
  refine ⟨fun h1 h2 => ?_, fun h1 => ?_, fun h1 h2 => ?_⟩
  · simp [scaffoldProject, h1, h2]
  · simp [scaffoldProject, h1]
  · simp [scaffoldProject, h1, h2]

/-- Concrete instantiation of `C4_amended`. -/
theorem C4_witness :
    scaffoldProject (Except.ok "ok [true] done") = Except.ok (Json.arr [Json.bool true]) :=
  (C4_amended "ok [true] done" "[true]" (Json.arr [Json.bool true])).1 rfl rfl

/-! ## Claim C5 -/

/-- The prose-wrapped raw response text from the spec example. -/
def c5Raw : String :=
  "Here you go:\n```json\n[\x7b\"id\":\"a\",\"name\":\"a\",\"content\":\"\",\"language\":\"\",\"type\":\"folder\"\x7d]\n```"

/-- The single object extracted and parsed from `c5Raw`. -/
def c5Entry : Json :=
  Json.obj [("id", Json.str "a"), ("name", Json.str "a"), ("content", Json.str ""),
    ("language", Json.str ""), ("type", Json.str "folder")]

/-- Claim C5: on the prose-wrapped raw text, extraction yields exactly one
folder entry with id "a"; on every raw text containing no bracketed
substring, `scaffoldProject` fails with the scaffold-specific error, whose
constructor is distinguishable from a generic transport failure. -/
theorem C5_scaffold_parse :
    (scaffoldProject (Except.ok c5Raw) = Except.ok (Json.arr [c5Entry]) ∧
     jsonEntry c5Entry
       = some { id := "a", name := "a", content := "", language := "",
                type := EntryType.folder }) ∧
    (∀ text : String, hasArraySubstring text.toList = false →
      scaffoldProject (Except.ok text)
        = Except.error (GeminiError.scaffoldFailed scaffoldFailedMessage)) ∧
    (∀ m, GeminiError.scaffoldFailed scaffoldFailedMessage ≠ GeminiError.transport m) := by
  refine ⟨⟨rfl, rfl⟩, fun text h => ?_, fun m h => GeminiError.noConfusion h⟩
  have hx : jsExtractArray text = none := by
    unfold jsExtractArray
    rw [jsExtractArrayAux_eq_none h]
    rfl
  simp [scaffoldProject, hx]

/-- Concrete instantiation of `C5_scaffold_parse`. -/
theorem C5_witness :
    scaffoldProject (Except.ok "no brackets here")
      = Except.error (GeminiError.scaffoldFailed scaffoldFailedMessage) :=
  C5_scaffold_parse.2.1 "no brackets here" (by decide)

/-! ## Claim C6 -/

/-- Claim C6: for every message text and every gateway outcome,
`sendChatMessage` grows the transcript by exactly two messages — the user
message then the model reply on success, the user message then the fixed
fallback on failure.  It is a total function of the injected outcome (it
never throws to the caller), and the busy flag is false after it settles
in both cases. -/
theorem C6_sendChatMessage (st : AppState) (message : String) :
    (∀ inst resp,
      (handleSendMessage st message (ChatResult.success inst resp)).chatHistory
        = st.chatHistory ++
          [{ role := ChatRole.user, content := message },
           { role := ChatRole.model, content := resp }] ∧
      (handleSendMessage st message (ChatResult.success inst resp)).isAiLoading = false) ∧
    ((handleSendMessage st message ChatResult.failure).chatHistory
        = st.chatHistory ++
          [{ role := ChatRole.user, content := message },
           { role := ChatRole.model, content := chatFallbackMessage }] ∧
     (handleSendMessage st message ChatResult.failure).isAiLoading = false) := by
  refine ⟨fun inst resp => ⟨?_, ?_⟩, ⟨?_, ?_⟩⟩ <;>
    cases hc : st.chat <;>
      simp [handleSendMessage, hc, List.append_assoc]

/-! ## Claim C7 -/

/-- Claim C7: when the gateway call inside `runAiAction` or `runScaffold`
fails, the entry collection and the active-id pointer are exactly as they
were before the call, and the busy flag is cleared on both the success and
the failure path of both operations. -/
theorem C7_failure_isolation (st : AppState) :
    (∀ mode code now e,
      (handleAiAction st mode code now (Except.error e)).1.entries = st.entries ∧
      (handleAiAction st mode code now (Except.error e)).1.activeId = st.activeId ∧
      (handleAiAction st mode code now (Except.error e)).1.isAiLoading = false) ∧
    (∀ mode code now r,
      (handleAiAction st mode code now (Except.ok r)).1.isAiLoading = false) ∧
    (∀ ge,
      (handleScaffold st (Except.error ge)).1.entries = st.entries ∧
      (handleScaffold st (Except.error ge)).1.activeId = st.activeId ∧
      (handleScaffold st (Except.error ge)).1.isAiLoading = false) ∧
    (∀ l, (handleScaffold st (Except.ok l)).1.isAiLoading = false) :=
  ⟨fun _ _ _ _ => ⟨rfl, rfl, rfl⟩, fun _ _ _ _ => rfl,
   fun _ => ⟨rfl, rfl, rfl⟩, fun _ => rfl⟩

/-! ## Claim C8 -/

/-- A workspace whose single entry has the empty string as id, selected as
the active entry. -/
def c8CexState : AppState :=
  { entries := [{ id := "", name := "f", content := "old", language := "", type := EntryType.file }]
  , activeId := some ""
  , chatHistory := []
  , isAiLoading := false
  , chat := none
  , isScaffoldModalOpen := false }

/-- Claim C8 as stated is false on the code: with a non-null active id that
is the empty string (which JavaScript treats as falsy in `if (activeId)`),
the entry whose id equals the active id keeps its old content instead of
being replaced. -/
theorem C8_counterexample :
    c8CexState.activeId ≠ none ∧
    c8CexState.entries.map VibeEntry.id = [""] ∧
    (handleContentChange c8CexState "new").entries.map VibeEntry.content = ["old"] := by
  refine ⟨by decide, rfl, rfl⟩

/-- Claim C8 amended: `editActiveContent` is a no-op on the collection when
the active id is null or the empty string; for a non-empty active id it maps
every entry to itself unless its id equals the active id, in which case only
the content field is replaced and all other fields are preserved. -/
theorem C8_amended :
    (∀ st c, st.activeId = none → handleContentChange st c = st) ∧
    (∀ st c, st.activeId = some "" → handleContentChange st c = st) ∧
    (∀ st c a, st.activeId = some a → a ≠ "" →
      (handleContentChange st c).entries =
        st.entries.map (fun e => if e.id = a then { e with content := c } else e) ∧
      (handleContentChange st c).activeId = st.activeId) ∧
    (∀ (e : VibeEntry) (c a : String), e.id ≠ a →
      (if e.id = a then { e with content := c } else e) = e) ∧
    (∀ (e : VibeEntry) (c a : String), e.id = a →
      (if e.id = a then { e with content := c } else e) = { e with content := c } ∧
      ({ e with content := c } : VibeEntry).id = e.id ∧
      ({ e with content := c } : VibeEntry).name = e.name ∧
      ({ e with content := c } : VibeEntry).language = e.language ∧
      ({ e with content := c } : VibeEntry).type = e.type) := by
  refine ⟨?_, ?_, ?_, ?_, ?_⟩
  · intro st c h
    simp [handleContentChange, h]
  · intro st c h
    simp [handleContentChange, h]
  · intro st c a h hne
    constructor
    · simp only [handleContentChange, h]
      rw [if_neg hne]
    · simp only [handleContentChange, h]
      rw [if_neg hne]
  · intro e c a h
    rw [if_neg h]
  · intro e c a h
    exact ⟨by rw [if_pos h], rfl, rfl, rfl, rfl⟩

/-- Concrete instantiation of `C8_amended`. -/
theorem C8_witness :
    (handleContentChange initialAppState "edited").entries =
      initialAppState.entries.map
        (fun e => if e.id = "welcome.js" then { e with content := "edited" } else e) ∧
    (handleContentChange initialAppState "edited").activeId = initialAppState.activeId :=
  C8_amended.2.2.1 initialAppState "edited" "welcome.js" rfl (by decide)

/-! ## Claim C9 -/

/-- Claim C9: module initialization throws when the `API_KEY` environment
variable carries no credential (unset, or the empty string, which the
JavaScript truthiness guard treats the same way), so the system refuses to
start before any gateway call; with a credential present, initialization
succeeds and constructs the client.  The gateway operations require the
constructed client, so no call precedes this check. -/
theorem C9_failFast :
    initGeminiService none = Except.error "API_KEY environment variable not set" ∧
    initGeminiService (some "") = Except.error "API_KEY environment variable not set" ∧
    (∀ k, k ≠ "" → initGeminiService (some k) = Except.ok { apiKey := k }) := by
  refine ⟨rfl, rfl, fun k hk => ?_⟩
  show (if k = "" then (Except.error "API_KEY environment variable not set" :
          Except String GoogleGenAI)
        else Except.ok { apiKey := k }) = Except.ok { apiKey := k }
  rw [if_neg hk]

/-- Concrete instantiation of `C9_failFast`. -/
theorem C9_witness :
    initGeminiService (some "test-key") = Except.ok { apiKey := "test-key" } :=
  C9_failFast.2.2 "test-key" (by decide)

/-! ## Claim C10 -/

/-- Claim C10: at startup the workspace holds exactly the three pre-seeded
entries — file `welcome.js`, file `styles.css`, folder `assets` — the
active id is `welcome.js`, and after the mount effect the chat transcript
holds exactly one model greeting, so a first `sendChatMessage` operates on
a one-message transcript. -/
theorem C10_initialWorkspace :
    initialAppState.entries.map (fun e => (e.id, e.name, e.type)) =
      [("welcome.js", "welcome.js", EntryType.file),
       ("styles.css", "styles.css", EntryType.file),
       ("assets", "assets", EntryType.folder)] ∧
    initialAppState.entries.length = 3 ∧
    initialAppState.activeId = some "welcome.js" ∧
    (mountChatEffect initialAppState).chatHistory =
      [{ role := ChatRole.model, content := vibeBotGreeting }] ∧
    (mountChatEffect initialAppState).chatHistory.length = 1 ∧
    (mountChatEffect initialAppState).entries = initialAppState.entries :=
  ⟨rfl, rfl, rfl, rfl, rfl, rfl⟩
